import Mathlib

/-!
Verification development for the Tidal client library and downloader.

The definitions below are shallow embeddings of the Rust sources:
strings are Lean `String`s (or `List Char` where character-level
rewriting matters), byte buffers are `List Nat` with each entry a byte
value, and machine integers are `Nat` with explicit `% 2 ^ w` at the
points where the Rust code can wrap.  Fallible Rust functions return
`Except`; Rust code that can panic (out-of-range slice indexing) is
embedded with an explicit `PanicOr` wrapper so that a panic is
distinguishable from an `Err` return.
-/

namespace Tidal

/-- Models Rust control flow that either panics or produces a value:
`crash` is an uncaught panic (e.g. an out-of-range slice index), `ret`
is a normal return. -/
inductive PanicOr (α : Type) where
  | crash : PanicOr α
  | ret (v : α) : PanicOr α
  deriving DecidableEq, Repr

/-- The error taxonomy of `src/tidal-rs/src/core/error.rs` (`TidalError`).
Payloads that are opaque foreign errors (`reqwest::Error`,
`serde_json::Error`, `std::io::Error`) are dropped; the `Api` payload keeps
the status and the message bytes because claims speak about them. -/
inductive TidalError where
  | api (status : Nat) (message : List Nat)
  | auth (msg : String)
  | network
  | json
  | decode (msg : String)
  | encryption (msg : String)
  | manifest (msg : String)
  | xml (msg : String)
  | io
  deriving DecidableEq, Repr

instance {ε α : Type} [DecidableEq ε] [DecidableEq α] : DecidableEq (Except ε α) := by
  intro a b
  cases a <;> cases b
  case error.error e f =>
    exact if h : e = f then Decidable.isTrue (by rw [h])
      else Decidable.isFalse (fun hc => h (by injection hc))
  case ok.ok x y =>
    exact if h : x = y then Decidable.isTrue (by rw [h])
      else Decidable.isFalse (fun hc => h (by injection hc))
  case error.ok e x => exact Decidable.isFalse (fun hc => Except.noConfusion hc)
  case ok.error x e => exact Decidable.isFalse (fun hc => Except.noConfusion hc)

/-- `true` exactly for the errors built by `TidalError::Network(_)`,
matching the `matches!(e, TidalError::Network(_))` test in
`get_with_retry`. -/
def TidalError.isNetwork : TidalError → Bool
  | .network => true
  | _ => false

/-! ## Credentials and token refresh (`src/tidal-dl/src/main.rs`, `src/tidal-rs/src/core/auth.rs`) -/

/-- `StoredCredentials` from `src/tidal-dl/src/main.rs`: the JSON record
persisted to the credentials file. -/
structure StoredCredentials where
  access_token : String
  refresh_token : String
  expires_at : Nat
  country_code : String
  deriving DecidableEq, Repr

/-- `TokenResponse` from `src/tidal-rs/src/core/auth.rs`.  The
`refresh_token` field carries `#[serde(default)]`, so a response without
that field deserializes with `refresh_token = ""`. -/
structure TokenResponse where
  access_token : String
  refresh_token : String
  token_type : String
  expires_in : Nat
  deriving DecidableEq, Repr

/-- The credentials record built and saved by the successful-refresh
branch of `get_client` (`src/tidal-dl/src/main.rs` lines 230-245):
`access_token` and `refresh_token` are taken unconditionally from the
refresh response, `expires_at` is `current_timestamp() + expires_in`,
and the stored country code is kept. -/
def refreshed_credentials (creds : StoredCredentials) (token : TokenResponse)
    (now : Nat) : StoredCredentials :=
  { access_token := token.access_token
    refresh_token := token.refresh_token
    expires_at := now + token.expires_in
    country_code := creds.country_code }

/-! ## Key unwrap (`src/tidal-rs/src/core/decrypt.rs`) -/

/-- The decoded bytes of the compiled-in base64 master key
`"UIlTTEMmmLfGowo/UC60x2H45W6MdGgTRfo/umg4754="` (32 bytes). -/
def MASTER_KEY_BYTES : List Nat :=
  [80, 137, 83, 76, 67, 38, 152, 183, 198, 163, 10, 63, 80, 46, 180, 199,
   97, 248, 229, 110, 140, 116, 104, 19, 69, 250, 63, 186, 104, 56, 239, 158]

/-- `DecryptionKey` from `src/tidal-rs/src/core/decrypt.rs`: a 16-byte
content key and an 8-byte nonce. -/
structure DecryptionKey where
  key : List Nat
  nonce : List Nat
  deriving DecidableEq, Repr

/-- CBC block chaining of the external `cbc` crate: each 16-byte block is
block-decrypted and xor-ed with the previous ciphertext block (the IV for
the first block).  The AES-256 block permutation itself is external
third-party code and is abstracted to the identity here: every theorem in
this file depends only on the fact that CBC decryption preserves the
byte length of its input. -/
def cbcChainAux (fuel : Nat) (prev data : List Nat) : List Nat :=
  match fuel with
  | 0 => []
  | fuel + 1 =>
    if data = [] then []
    else (List.zipWith Nat.xor (data.take 16) (prev.take 16)) ++
      cbcChainAux fuel (data.take 16) (data.drop 16)

/-- CBC chaining over all blocks; the fuel `data.length` strictly bounds
the number of 16-byte steps. -/
def cbcChainBlocks (prev data : List Nat) : List Nat :=
  cbcChainAux data.length prev data

/-- `Aes256CbcDec::decrypt_padded_mut::<NoPadding>` of the external
`cbc`/`aes` crates: fails unless the input length is a multiple of the
16-byte block size, otherwise decrypts in place (length preserved). -/
def cbcDecryptNoPad (iv data : List Nat) : Option (List Nat) :=
  if data.length % 16 = 0 then some (cbcChainBlocks iv data) else none

/-- `decrypt_key_id` from `src/tidal-rs/src/core/decrypt.rs`, embedded over
the base64-decoded bytes of the `key_id` argument (base64 decoding itself
is the external `base64` crate; a decode failure is a `Decode` error
before this logic runs).  Rust slice indexing `key_id_bytes[..16]` and
`decrypted[16..24]` panics when the slice is shorter than the requested
range, which this embedding makes explicit as `PanicOr.crash`; the
`try_into` guards in the source can only run after the slicing has
already succeeded, at which point they cannot fail. -/
def decrypt_key_id (key_id_bytes : List Nat) : PanicOr (Except TidalError DecryptionKey) :=
  if key_id_bytes.length < 16 then
    -- `key_id_bytes[..16]` panics: range end out of bounds
    PanicOr.crash
  else
    let iv := key_id_bytes.take 16
    let encrypted := key_id_bytes.drop 16
    if MASTER_KEY_BYTES.length ≠ 32 ∨ iv.length ≠ 16 then
      PanicOr.ret (Except.error (TidalError.encryption "Invalid key/iv length"))
    else
      match cbcDecryptNoPad iv encrypted with
      | none => PanicOr.ret (Except.error (TidalError.encryption "Decryption failed"))
      | some decrypted =>
        if decrypted.length < 24 then
          -- `decrypted[..16]` or `decrypted[16..24]` panics
          PanicOr.crash
        else
          PanicOr.ret (Except.ok
            { key := decrypted.take 16
              nonce := (decrypted.drop 16).take 8 })

/-! ## Container detection and filenames (`src/tidal-dl/src/main.rs`) -/

/-- `ContainerKind` from `src/tidal-dl/src/main.rs`. -/
inductive ContainerKind where
  | flac
  | mp4
  deriving DecidableEq, Repr

/-- The bytes of `b"fLaC"`. -/
def fLaCBytes : List Nat := [0x66, 0x4C, 0x61, 0x43]

/-- The bytes of `b"ftyp"`. -/
def ftypBytes : List Nat := [0x66, 0x74, 0x79, 0x70]

/-- `detect_container` from `src/tidal-dl/src/main.rs`: `fLaC` magic at
offset 0 wins, then `ftyp` at offset 4, otherwise FLAC by default. -/
def detect_container (data : List Nat) : ContainerKind :=
  if 4 ≤ data.length ∧ data.take 4 = fLaCBytes then ContainerKind.flac
  else if 8 ≤ data.length ∧ (data.drop 4).take 4 = ftypBytes then ContainerKind.mp4
  else ContainerKind.flac

/-- The extension chosen for the saved file in `download_track`
(`src/tidal-dl/src/main.rs` lines 847-851). -/
def container_ext : ContainerKind → String
  | ContainerKind.flac => "flac"
  | ContainerKind.mp4 => "m4a"

/-! ## Filename sanitization (`src/tidal-dl/src/main.rs`) -/

/-- The `invalid_chars` array of `sanitize_filename`. -/
def invalid_chars : List Char := ['<', '>', ':', '"', '/', '\\', '|', '?', '*']

/-- Rust `str::replace(c, "_")` for a single-character pattern: every
occurrence of `c` becomes `'_'`. -/
def replaceCharWithUnderscore (c : Char) (s : List Char) : List Char :=
  s.map (fun x => if x = c then '_' else x)

/-- Rust `str::trim_end_matches(['.', ' '])`: repeatedly removes a
trailing character drawn from the given set. -/
def trimEndMatches (cs : List Char) (s : List Char) : List Char :=
  (s.reverse.dropWhile (fun c => cs.contains c)).reverse

/-- `sanitize_filename` from `src/tidal-dl/src/main.rs`: sequentially
replaces each character of `invalid_chars` with `'_'`, then trims
trailing `'.'` and `' '` characters. -/
def sanitize_filename (name : List Char) : List Char :=
  trimEndMatches ['.', ' ']
    (invalid_chars.foldl (fun acc c => replaceCharWithUnderscore c acc) name)

/-- The saved-file name built by `download_track`
(`src/tidal-dl/src/main.rs` lines 853-858):
`"{artist} - {full_title}.{ext}"` with both parts sanitized and the
extension chosen from the detected container. -/
def track_filename (artist_name full_title : String) (data : List Nat) : String :=
  String.mk (sanitize_filename artist_name.data) ++ " - " ++
    String.mk (sanitize_filename full_title.data) ++ "." ++
    container_ext (detect_container data)

/-! ## Device-code polling (`src/tidal-rs/src/core/auth.rs`) -/

/-- `TokenErrorResponse` from `src/tidal-rs/src/core/auth.rs`. -/
structure TokenErrorResponse where
  error : String
  error_description : Option String
  deriving DecidableEq, Repr

/-- What one iteration of the `poll_for_token` loop does after its HTTP
call: return the token, fail with an error, or go around the loop again
(after `extraSleepSecs` additional seconds of sleep on top of the
`interval` sleep that starts every iteration). -/
inductive PollStep where
  | done (t : TokenResponse)
  | fail (e : TidalError)
  | again (extraSleepSecs : Nat)
  deriving DecidableEq, Repr

/-- Rust `StatusCode::is_success()`: the status is in `200..=299`. -/
def isSuccessStatus (s : Nat) : Bool := 200 ≤ s && s ≤ 299

/-- The `{:?}` debug rendering of the `Option<String>` description used in
the catch-all arm of `poll_for_token` (quote escaping inside the string
is immaterial to the claims and omitted). -/
def debugFormatOptString : Option String → String
  | some s => "Some(\"" ++ s ++ "\")"
  | none => "None"

/-- One iteration of the `poll_for_token` response dispatch
(`src/tidal-rs/src/core/auth.rs` lines 120-141).  `tokenBody` is the
result of parsing the body as a `TokenResponse` (consulted only on 2xx;
a 2xx body that fails to parse propagates a `Json` error through `?`),
`errBody` is the result of parsing the body as a `TokenErrorResponse`
(consulted only on non-2xx; an unparseable error body falls through the
`if let` and the loop silently continues). -/
def poll_dispatch (status : Nat) (tokenBody : Option TokenResponse)
    (errBody : Option TokenErrorResponse) : PollStep :=
  if isSuccessStatus status then
    match tokenBody with
    | some t => PollStep.done t
    | none => PollStep.fail TidalError.json
  else
    match errBody with
    | some err =>
      if err.error = "authorization_pending" then PollStep.again 0
      else if err.error = "slow_down" then PollStep.again 5
      else if err.error = "expired_token" then PollStep.fail (TidalError.auth "code expired")
      else if err.error = "access_denied" then PollStep.fail (TidalError.auth "access denied")
      else
        PollStep.fail (TidalError.auth
          (err.error ++ ": " ++ debugFormatOptString err.error_description))
    | none => PollStep.again 0

/-! ## HTTP GET with retry (`src/tidal-rs/src/core/api/client.rs`) -/

/-- The outcome of one raw HTTP GET as seen by `get_once`: either a
transport-level `reqwest` failure (from `send()` or `text()`, converted
to `TidalError::Network` by `?`), or a response with a status code, a
body (as bytes), and the result of parsing that body as the target type
`α`. -/
inductive HttpOutcome (α : Type) where
  | transportFail
  | response (status : Nat) (body : List Nat) (parsed : Option α)

/-- Rust `str::is_char_boundary(i)` on the UTF-8 bytes of a `String`:
true at index 0 and at the total length, and at an in-range index whose
byte is not a UTF-8 continuation byte (`0x80..0xBF`); false past the
end. -/
def isCharBoundary (body : List Nat) (i : Nat) : Bool :=
  i = 0 ||
    (if i < body.length then body.getD i 0 < 0x80 || 0xC0 ≤ body.getD i 0
     else i = body.length)

/-- `get_once` from `src/tidal-rs/src/core/api/client.rs`: a non-2xx
status becomes an `Api` error carrying the status and the first
`text.len().min(200)` body bytes; a 2xx body that does not parse is a
`Json` error.  The truncation `text[..text.len().min(200)]` is a Rust
`String` byte-range index: it panics when the slice end is not a UTF-8
character boundary — that is, when the body exceeds 200 bytes and byte
200 is a continuation byte of a multi-byte character — which this
embedding makes explicit as `PanicOr.crash`. -/
def get_once {α : Type} (o : HttpOutcome α) : PanicOr (Except TidalError α) :=
  match o with
  | HttpOutcome.transportFail => PanicOr.ret (Except.error TidalError.network)
  | HttpOutcome.response status body parsed =>
    if isSuccessStatus status then
      match parsed with
      | some v => PanicOr.ret (Except.ok v)
      | none => PanicOr.ret (Except.error TidalError.json)
    else
      if isCharBoundary body (min 200 body.length) then
        PanicOr.ret (Except.error
          (TidalError.api status (body.take (min 200 body.length))))
      else
        -- `text[..text.len().min(200)]` panics: not a char boundary
        PanicOr.crash

/-- The observable behaviour of one `get_with_retry` call: the returned
result (or the panic that unwound through the loop), how many times
`get_once` ran, and the list of sleep durations (in milliseconds)
performed, in order. -/
structure RetryTrace (α : Type) where
  result : PanicOr (Except TidalError α)
  calls : Nat
  sleeps : List Nat

/-- The `for attempt in 0..=max_retries` loop of `get_with_retry`
(`src/tidal-rs/src/core/api/client.rs` lines 139-166), with the `k`-th
execution of `get_once` drawn from `outcomes k`.  Every iteration with
`attempt > 0` first sleeps `retry_delay * attempt`; a `Network` error
with `attempt < max_retries` retries, every other error (and any
success) returns at once; a panic inside `get_once` unwinds through the
loop immediately.  The loop body always returns by the final iteration,
so the `last_error.unwrap_or` fallthrough after the loop is dead code
and has no counterpart here. -/
def retryLoop {α : Type} (max_retries retry_delay : Nat)
    (outcomes : Nat → HttpOutcome α) (attempt : Nat) : RetryTrace α :=
  let pre : List Nat := if attempt = 0 then [] else [retry_delay * attempt]
  match get_once (outcomes attempt) with
  | PanicOr.crash => ⟨PanicOr.crash, attempt + 1, pre⟩
  | PanicOr.ret (Except.ok v) => ⟨PanicOr.ret (Except.ok v), attempt + 1, pre⟩
  | PanicOr.ret (Except.error e) =>
    if e.isNetwork ∧ attempt < max_retries then
      let rest := retryLoop max_retries retry_delay outcomes (attempt + 1)
      ⟨rest.result, rest.calls, pre ++ rest.sleeps⟩
    else
      ⟨PanicOr.ret (Except.error e), attempt + 1, pre⟩
termination_by max_retries - attempt
decreasing_by
  rename_i hcond
  omega

/-- `get_with_retry` from `src/tidal-rs/src/core/api/client.rs`: the
retry loop started at attempt 0. -/
def get_with_retry {α : Type} (max_retries retry_delay : Nat)
    (outcomes : Nat → HttpOutcome α) : RetryTrace α :=
  retryLoop max_retries retry_delay outcomes 0

/-- `ClientConfig::default()` from `src/tidal-rs/src/core/api/client.rs`:
`max_retries = 3`, `retry_delay = 500 ms`, timeout 30 s. -/
def defaultClientMaxRetries : Nat := 3

/-! ## CTR stream decryption (`src/tidal-rs/src/core/decrypt.rs`,
`src/tidal-rs/src/core/stream.rs`) -/

/-- `StreamDecryptor` from `src/tidal-rs/src/core/decrypt.rs`.  The
wrapped `Ctr128BE<Aes128>` cipher of the external `ctr` crate is a
keystream generator whose state is its position in the stream:
`keystream n` is the `n`-th keystream byte (determined in the real code
by the AES-128 key and the IV `nonce ++ [0; 8]` fixed at
`StreamDecryptor::new`), and `pos` is the number of bytes already
processed (0 for a fresh decryptor). -/
structure StreamDecryptor where
  keystream : Nat → Nat
  pos : Nat

/-- `apply_keystream` of the external `ctr` crate on a byte buffer:
xor each byte with the next keystream byte. -/
def ctrApply (ks : Nat → Nat) (pos : Nat) : List Nat → List Nat
  | [] => []
  | b :: rest => Nat.xor b (ks pos) :: ctrApply ks (pos + 1) rest

/-- `StreamDecryptor::decrypt` (`src/tidal-rs/src/core/decrypt.rs` lines
69-71): applies the keystream in place and leaves the cipher advanced
past the processed bytes.  Returns the decrypted buffer together with
the advanced decryptor. -/
def StreamDecryptor.decrypt (d : StreamDecryptor) (data : List Nat) :
    List Nat × StreamDecryptor :=
  (ctrApply d.keystream d.pos data, ⟨d.keystream, d.pos + data.length⟩)

/-- The segment loop of `get_stream_bytes`
(`src/tidal-rs/src/core/stream.rs` lines 101-117), with the fetched body
of the `i`-th URL given as `segments[i]`: each segment is decrypted (when
a decryptor is attached) with the decryptor state carried across
segments, and appended to the accumulator. -/
def get_stream_bytes (enc : Option StreamDecryptor) (segments : List (List Nat)) :
    List Nat × Option StreamDecryptor :=
  match segments with
  | [] => ([], enc)
  | seg :: rest =>
    match enc with
    | none =>
      let r := get_stream_bytes none rest
      (seg ++ r.1, r.2)
    | some d =>
      let step := d.decrypt seg
      let r := get_stream_bytes (some step.2) rest
      (step.1 ++ r.1, r.2)

/-! ## MPD projection (`src/tidal-rs/src/core/api/playback.rs`) -/

/-- `DashManifest` (see `src/tidal-rs/src/core/api/models.rs`): the
projection of an MPD into a mime type, codecs, and an ordered URL list. -/
structure DashManifest where
  mime_type : String
  codecs : String
  urls : List String
  deriving DecidableEq, Repr

/-- One XML attribute as delivered by the external `quick_xml` reader. -/
structure XmlAttr where
  key : String
  value : String
  deriving DecidableEq, Repr

/-- The `quick_xml` events consumed by `parse_mpd`: `Start`/`Empty` tags
with their attributes, `End` tags, and text (ignored).  The event list
ends where the reader reports `Eof`; reader errors abort before any of
the logic modelled here matters to the claims. -/
inductive XmlEvent where
  | startTag (name : String) (attrs : List XmlAttr)
  | emptyTag (name : String) (attrs : List XmlAttr)
  | endTag (name : String)
  | textData (s : String)
  deriving DecidableEq, Repr

/-- Decimal-digit parse of a character list: `some n` when the list is a
non-empty all-digit sequence, `none` otherwise. -/
def digitsToNat? (cs : List Char) : Option Nat :=
  if cs = [] then none
  else if cs.all Char.isDigit then
    some (cs.foldl (fun acc c => acc * 10 + (c.toNat - 48)) 0)
  else none

/-- Rust `str::parse::<uN>().unwrap_or(0)` for an unsigned `w`-bit
integer: an optional leading `+`, then decimal digits; overflow or any
other shape yields the `unwrap_or` default 0. -/
def rustParseUnsigned (w : Nat) (s : String) : Nat :=
  let cs := if s.data.head? = some '+' then s.data.tail else s.data
  match digitsToNat? cs with
  | some n => if n < 2 ^ w then n else 0
  | none => 0

/-- The attribute scan pattern of `parse_mpd`: the loop
`for attr in e.attributes() { if attr.key == k { field = value } }`
leaves `field` at the last matching attribute value, or at its previous
value if none matches. -/
def scanAttr (attrs : List XmlAttr) (k : String) (dflt : String) : String :=
  attrs.foldl (fun acc a => if a.key = k then a.value else acc) dflt

/-- Same scan for the `Option<String>` fields (`initialization`,
`media`), which are only ever overwritten on a match. -/
def scanAttrOpt (attrs : List XmlAttr) (k : String) (dflt : Option String) :
    Option String :=
  attrs.foldl (fun acc a => if a.key = k then some a.value else acc) dflt

/-- The mutable locals of the `parse_mpd` event loop. -/
structure MpdState where
  mime_type : String
  codecs : String
  in_segment_timeline : Bool
  initialization_url : Option String
  media_template : Option String
  /-- `segment_durations : Vec<(u64, u32)>` — the stored pair is
  `(duration, repeat + 1)` with `repeat + 1` computed in `u32`, so a
  parsed `r` of `u32::MAX` wraps the count to 0 (release-mode
  semantics). -/
  segment_durations : List (Nat × Nat)
  deriving DecidableEq, Repr

/-- The initial `parse_mpd` state. -/
def mpdInit : MpdState :=
  { mime_type := ""
    codecs := ""
    in_segment_timeline := false
    initialization_url := none
    media_template := none
    segment_durations := [] }

/-- The `duration` local of the `<S>` arm: the last `d` attribute parsed
as `u64` with `unwrap_or(0)`, starting from 0. -/
def sParseD (attrs : List XmlAttr) : Nat :=
  attrs.foldl (fun acc a => if a.key = "d" then rustParseUnsigned 64 a.value else acc) 0

/-- The `repeat` local of the `<S>` arm: the last `r` attribute parsed as
`u32` with `unwrap_or(0)`, starting from 0. -/
def sParseR (attrs : List XmlAttr) : Nat :=
  attrs.foldl (fun acc a => if a.key = "r" then rustParseUnsigned 32 a.value else acc) 0

/-- The shared `Start`/`Empty` arm of the `parse_mpd` match
(`src/tidal-rs/src/core/api/playback.rs` lines 60-113). -/
def mpdOpenTag (st : MpdState) (name : String) (attrs : List XmlAttr) : MpdState :=
  if name = "AdaptationSet" then
    { st with mime_type := scanAttr attrs "mimeType" st.mime_type }
  else if name = "Representation" then
    { st with
      codecs := scanAttr attrs "codecs" st.codecs
      mime_type := scanAttr attrs "mimeType" st.mime_type }
  else if name = "SegmentTemplate" then
    { st with
      initialization_url := scanAttrOpt attrs "initialization" st.initialization_url
      media_template := scanAttrOpt attrs "media" st.media_template }
  else if name = "SegmentTimeline" then
    { st with in_segment_timeline := true }
  else if name = "S" ∧ st.in_segment_timeline then
    { st with segment_durations :=
        st.segment_durations ++ [(sParseD attrs, (sParseR attrs + 1) % 2 ^ 32)] }
  else st

/-- One iteration of the `parse_mpd` event loop. -/
def mpd_step (st : MpdState) (e : XmlEvent) : MpdState :=
  match e with
  | XmlEvent.startTag n attrs => mpdOpenTag st n attrs
  | XmlEvent.emptyTag n attrs => mpdOpenTag st n attrs
  | XmlEvent.endTag n =>
    if n = "SegmentTimeline" then { st with in_segment_timeline := false } else st
  | XmlEvent.textData _ => st

def replaceAllCharsAux : Nat → List Char → List Char → List Char → List Char
  | 0, _, _, s => s
  | fuel + 1, pat, rep, s =>
    match s with
    | [] => []
    | c :: rest =>
      if pat.isPrefixOf (c :: rest) then
        rep ++ replaceAllCharsAux fuel pat rep ((c :: rest).drop pat.length)
      else
        c :: replaceAllCharsAux fuel pat rep rest

/-- Rust `str::replace(pat, rep)` on character lists: leftmost,
non-overlapping replacement of every occurrence.  With a non-empty
pattern every step consumes at least one character, so `s.length` fuel
always suffices. -/
def replaceAllChars (pat rep s : List Char) : List Char :=
  if pat = [] then s else replaceAllCharsAux s.length pat rep s

/-- Rust `str::replace` on `String`s. -/
def strReplace (s pat rep : String) : String :=
  String.mk (replaceAllChars pat.data rep.data s.data)

/-- The segment-URL emission loop of `parse_mpd`
(`src/tidal-rs/src/core/api/playback.rs` lines 129-137):
`segment_number` is a `u32` starting at 1 and incremented once per
emitted segment (wrapping in release mode); each segment URL is the
media template with `$Number$` replaced by the counter. -/
def segmentUrlsFrom (media : String) (counter : Nat) :
    List (Nat × Nat) → List String
  | [] => []
  | (_, count) :: rest =>
    (List.range count).map
      (fun i => strReplace media "$Number$" (toString ((counter + i) % 2 ^ 32))) ++
      segmentUrlsFrom media ((counter + count) % 2 ^ 32) rest

/-- The URL assembly and final checks of `parse_mpd`
(`src/tidal-rs/src/core/api/playback.rs` lines 125-153): initialization
URL first, then the media segments; an empty URL list is a `Manifest`
error; an empty mime type defaults to `audio/mp4`. -/
def mpd_finish (st : MpdState) : Except TidalError DashManifest :=
  let urls :=
    (match st.initialization_url with
      | some u => [u]
      | none => []) ++
    (match st.media_template with
      | some media => segmentUrlsFrom media 1 st.segment_durations
      | none => [])
  if urls = [] then
    Except.error (TidalError.manifest "No URLs found in DASH manifest")
  else
    Except.ok
      { mime_type := if st.mime_type = "" then "audio/mp4" else st.mime_type
        codecs := st.codecs
        urls := urls }

/-- `parse_mpd` from `src/tidal-rs/src/core/api/playback.rs`, over the
event stream produced by the XML reader. -/
def parse_mpd (events : List XmlEvent) : Except TidalError DashManifest :=
  mpd_finish (events.foldl mpd_step mpdInit)

/-! ## Synced-lyrics lookup (`src/tidal-rs/src/core/lyrics.rs`) -/

/-- `LyricLine` from `src/tidal-rs/src/core/lyrics.rs`; `time` is the
`Duration` in an arbitrary fixed granularity (`Duration` ordering is the
total numeric order). -/
structure LyricLine where
  time : Nat
  text : String
  deriving DecidableEq, Repr, Inhabited

/-- `SyncedLyrics` from `src/tidal-rs/src/core/lyrics.rs`. -/
structure SyncedLyrics where
  lines : List LyricLine
  deriving DecidableEq, Repr

def binarySearchLoopAux {α : Type} [Inhabited α] :
    Nat → (α → Ordering) → List α → Nat → Nat → Nat ⊕ Nat
  | 0, _, _, left, _ => Sum.inr left
  | fuel + 1, f, xs, left, right =>
    if left < right then
      let mid := left + (right - left) / 2
      match f (xs.getD mid default) with
      | Ordering.lt => binarySearchLoopAux fuel f xs (mid + 1) right
      | Ordering.gt => binarySearchLoopAux fuel f xs left mid
      | Ordering.eq => Sum.inl mid
    else
      Sum.inr left

/-- The standard-library binary search `slice::binary_search_by` (invoked
by `find_line_index`; external library code): the classic bisection loop
on `[left, right)`, where `inl i` is `Ok(i)` and `inr i` is `Err(i)` —
`Err` carries the index where a matching element could be inserted.  The
span shrinks every iteration, so `right - left` fuel always suffices;
out-of-range reads cannot occur (`mid < right ≤ len` throughout), so
`getD` with a default is exact. -/
def binarySearchLoop {α : Type} [Inhabited α] (f : α → Ordering) (xs : List α)
    (left right : Nat) : Nat ⊕ Nat :=
  binarySearchLoopAux (right - left) f xs left right

/-- `slice::binary_search_by` over the whole slice. -/
def binarySearchBy {α : Type} [Inhabited α] (f : α → Ordering) (xs : List α) :
    Nat ⊕ Nat :=
  binarySearchLoop f xs 0 xs.length

/-- The comparator closure of `find_line_index`
(`src/tidal-rs/src/core/lyrics.rs` lines 144-150): `Less` when the
line's time is at or before the position, `Greater` otherwise (never
`Equal`). -/
def lineCmp (position : Nat) (line : LyricLine) : Ordering :=
  if line.time ≤ position then Ordering.lt else Ordering.gt

/-- `find_line_index` from `src/tidal-rs/src/core/lyrics.rs` lines
139-160: binary-search with `lineCmp`, take `Ok(i)` as is or
`Err(i).saturating_sub(1)`, and answer only if the candidate line has
started by `position`. -/
def find_line_index (lyrics : SyncedLyrics) (position : Nat) : Option Nat :=
  if lyrics.lines = [] then none
  else
    let idx :=
      match binarySearchBy (lineCmp position) lyrics.lines with
      | Sum.inl i => i
      | Sum.inr i => i - 1
    if (lyrics.lines.getD idx default).time ≤ position then some idx else none

/-- `line_index_at` from `src/tidal-rs/src/core/lyrics.rs` lines 135-137:
a direct wrapper around `find_line_index`. -/
def line_index_at (lyrics : SyncedLyrics) (position : Nat) : Option Nat :=
  find_line_index lyrics position

/-- Sortedness of the lyric lines by non-decreasing time (the state
`SyncedLyrics::parse` establishes with `sort_by`). -/
def LinesSorted (lyrics : SyncedLyrics) : Prop :=
  lyrics.lines.Pairwise (fun a b => a.time ≤ b.time)

instance (lyrics : SyncedLyrics) : Decidable (LinesSorted lyrics) := by
  unfold LinesSorted
  infer_instance

/-- Spec-side restatement of §4.3 step 4 (used to compare the code's
event fold against the spec's words): walking the events with a
`SegmentTimeline` open/close flag, each `<S>` inside a timeline
contributes its parsed duration paired with its segment count; the count
the code stores is `(r + 1)` computed in `u32`. -/
def specSegmentCounts (inTimeline : Bool) : List XmlEvent → List (Nat × Nat)
  | [] => []
  | XmlEvent.startTag n attrs :: rest =>
    if n = "SegmentTimeline" then specSegmentCounts true rest
    else if n = "S" ∧ inTimeline then
      (sParseD attrs, (sParseR attrs + 1) % 2 ^ 32) :: specSegmentCounts inTimeline rest
    else specSegmentCounts inTimeline rest
  | XmlEvent.emptyTag n attrs :: rest =>
    if n = "SegmentTimeline" then specSegmentCounts true rest
    else if n = "S" ∧ inTimeline then
      (sParseD attrs, (sParseR attrs + 1) % 2 ^ 32) :: specSegmentCounts inTimeline rest
    else specSegmentCounts inTimeline rest
  | XmlEvent.endTag n :: rest =>
    specSegmentCounts (if n = "SegmentTimeline" then false else inTimeline) rest
  | XmlEvent.textData _ :: rest => specSegmentCounts inTimeline rest

/-! ## Theorems -/

theorem head?_dropWhile_false {α : Type} (p : α → Bool) (l : List α) (c : α)
    (h : (l.dropWhile p).head? = some c) : p c = false := by
  induction l with
  | nil => simp [List.dropWhile] at h
  | cons a t ih =>
    rw [List.dropWhile_cons] at h
    split at h
    · exact ih h
    · rename_i hpa
      simp only [List.head?_cons, Option.some.injEq] at h
      subst h
      simpa using hpa

theorem getLast?_trimEndMatches (cs s : List Char) (c : Char)
    (h : (trimEndMatches cs s).getLast? = some c) : cs.contains c = false := by
  unfold trimEndMatches at h
  rw [List.getLast?_reverse] at h
  exact head?_dropWhile_false _ _ _ h

theorem sanitize_replace_eq_map (s : List Char) :
    invalid_chars.foldl (fun acc c => replaceCharWithUnderscore c acc) s =
      s.map (fun c => if invalid_chars.contains c then '_' else c) := by
  simp only [invalid_chars, List.foldl_cons, List.foldl_nil, replaceCharWithUnderscore,
    List.map_map]
  refine List.map_congr_left fun x _ => ?_
  by_cases hx : x ∈ invalid_chars
  · fin_cases hx <;> rfl
  · simp only [invalid_chars, List.mem_cons, List.not_mem_nil, or_false] at hx
    push_neg at hx
    obtain ⟨h1, h2, h3, h4, h5, h6, h7, h8, h9⟩ := hx
    simp [Function.comp, h1, h2, h3, h4, h5, h6, h7, h8, h9]

/-- Claim C9 counterexample: the claim says trailing whitespace is
stripped, but the code trims only `'.'` and `' '`: on input `"a\t"` the
trailing tab — a whitespace character — survives sanitization. -/
theorem sanitize_filename_tab_counterexample :
    sanitize_filename ['a', '\t'] = ['a', '\t'] ∧
      (sanitize_filename ['a', '\t']).getLast? = some '\t' ∧
      Char.isWhitespace '\t' = true := by
  refine ⟨?_, ?_, by decide⟩ <;> rfl

/-- Claim C9 (amended): `sanitize_filename` replaces every occurrence of
each character in `<>:"/\|?*` with `'_'` and alters no other character,
then strips trailing `'.'` and `' '` (space) characters — only those
two, not all whitespace. -/
theorem sanitize_filename_amended (s : List Char) :
    sanitize_filename s =
      trimEndMatches ['.', ' ']
        (s.map (fun c => if invalid_chars.contains c then '_' else c)) ∧
    (∀ c, (sanitize_filename s).getLast? = some c → c ≠ '.' ∧ c ≠ ' ') := by
  constructor
  · unfold sanitize_filename
    rw [sanitize_replace_eq_map]
  · intro c hc
    have hfalse := getLast?_trimEndMatches ['.', ' '] _ c hc
    simp only [List.contains_cons, List.contains_nil, Bool.or_false,
      Bool.or_eq_false_iff] at hfalse
    refine ⟨fun h => ?_, fun h => ?_⟩
    · subst h; simp at hfalse
    · subst h; simp at hfalse

/-- Claim C9 witness: the amended theorem applied to the concrete input
`"a<b."`. -/
theorem sanitize_filename_amended_witness :
    sanitize_filename ['a', '<', 'b', '.'] =
      trimEndMatches ['.', ' ']
        (['a', '<', 'b', '.'].map (fun c => if invalid_chars.contains c then '_' else c)) ∧
    ('b' ≠ '.' ∧ 'b' ≠ ' ') :=
  ⟨(sanitize_filename_amended ['a', '<', 'b', '.']).1,
    (sanitize_filename_amended ['a', '<', 'b', '.']).2 'b' (by decide)⟩

/-- Claim C1 is right about the intended behaviour but the code does not
implement it: the successful-refresh branch of `get_client` saves the
response's `refresh_token` unconditionally, so a successful refresh whose
response omits the field (deserialized as `""`) overwrites the stored
refresh token with the empty string instead of keeping the old one. -/
theorem refresh_overwrites_stored_refresh_token :
    (refreshed_credentials
        { access_token := "old-access", refresh_token := "OLD-REFRESH",
          expires_at := 100, country_code := "US" }
        { access_token := "new-access", refresh_token := "",
          token_type := "Bearer", expires_in := 3600 }
        5000).refresh_token = "" ∧
    (refreshed_credentials
        { access_token := "old-access", refresh_token := "OLD-REFRESH",
          expires_at := 100, country_code := "US" }
        { access_token := "new-access", refresh_token := "",
          token_type := "Bearer", expires_in := 3600 }
        5000).refresh_token ≠ "OLD-REFRESH" := by
  refine ⟨rfl, by decide⟩

/-- Claim C2 is right about the intended error reporting but the code
panics instead: `decrypt_key_id` slices `key_id_bytes[..16]` and
`decrypted[16..24]` before the `try_into` size guards can run, so a
base64 payload of fewer than 16 bytes (e.g. the empty `key_id`), or one
whose CBC plaintext is shorter than 24 bytes (e.g. a 32-byte payload:
16-byte IV + one 16-byte block), makes the slice indexing panic rather
than return an `Encryption` error. -/
theorem decrypt_key_id_panics_on_short_slices :
    decrypt_key_id [] = PanicOr.crash ∧
    decrypt_key_id (List.replicate 15 0) = PanicOr.crash ∧
    decrypt_key_id (List.replicate 32 0) = PanicOr.crash ∧
    (decrypt_key_id (List.replicate 20 0) =
      PanicOr.ret (Except.error (TidalError.encryption "Decryption failed"))) := by
  refine ⟨rfl, by decide, by decide, by decide⟩

/-- Claim C7 counterexample: the claim's MP4 clause demands MP4 for every
buffer of length ≥ 8 with bytes 4..8 equal to `"ftyp"`, but the code
tests the FLAC magic first: the buffer `"fLaCftyp"` satisfies the MP4
clause's premise yet is detected as FLAC. -/
theorem detect_container_flac_priority_counterexample :
    8 ≤ ([0x66, 0x4C, 0x61, 0x43, 0x66, 0x74, 0x79, 0x70] : List Nat).length ∧
    (([0x66, 0x4C, 0x61, 0x43, 0x66, 0x74, 0x79, 0x70] : List Nat).drop 4).take 4 =
      ftypBytes ∧
    detect_container [0x66, 0x4C, 0x61, 0x43, 0x66, 0x74, 0x79, 0x70] ≠
      ContainerKind.mp4 := by
  refine ⟨by decide, by decide, by decide⟩

/-- Claim C7 (amended): `detect_container` returns FLAC for every buffer
whose bytes 0..4 equal `"fLaC"`; returns MP4 for every buffer of length
at least 8 whose bytes 4..8 equal `"ftyp"` and whose bytes 0..4 are not
`"fLaC"` (the FLAC magic takes priority); returns FLAC for every other
buffer, including buffers shorter than 4 bytes; and the saved file's
extension is `.flac` for FLAC and `.m4a` for MP4. -/
theorem detect_container_amended :
    (∀ data : List Nat, data.take 4 = fLaCBytes →
      detect_container data = ContainerKind.flac) ∧
    (∀ data : List Nat, 8 ≤ data.length → (data.drop 4).take 4 = ftypBytes →
      data.take 4 ≠ fLaCBytes → detect_container data = ContainerKind.mp4) ∧
    (∀ data : List Nat, data.take 4 ≠ fLaCBytes →
      ¬(8 ≤ data.length ∧ (data.drop 4).take 4 = ftypBytes) →
      detect_container data = ContainerKind.flac) ∧
    (∀ (a t : String) (data : List Nat), detect_container data = ContainerKind.flac →
      ∃ stem, track_filename a t data = stem ++ ".flac") ∧
    (∀ (a t : String) (data : List Nat), detect_container data = ContainerKind.mp4 →
      ∃ stem, track_filename a t data = stem ++ ".m4a") := by
  refine ⟨?_, ?_, ?_, ?_, ?_⟩
  · intro data h
    have hl : 4 ≤ data.length := by
      have := congrArg List.length h
      simp only [List.length_take, fLaCBytes, List.length_cons, List.length_nil] at this
      omega
    unfold detect_container
    rw [if_pos ⟨hl, h⟩]
  · intro data h1 h2 h3
    unfold detect_container
    rw [if_neg (fun hc => h3 hc.2), if_pos ⟨h1, h2⟩]
  · intro data h1 h2
    unfold detect_container
    rw [if_neg (fun hc => h1 hc.2), if_neg h2]
  · intro a t data h
    refine ⟨String.mk (sanitize_filename a.data) ++ " - " ++
      String.mk (sanitize_filename t.data), ?_⟩
    simp only [track_filename, h, container_ext]
    rw [String.append_assoc]
    rfl
  · intro a t data h
    refine ⟨String.mk (sanitize_filename a.data) ++ " - " ++
      String.mk (sanitize_filename t.data), ?_⟩
    simp only [track_filename, h, container_ext]
    rw [String.append_assoc]
    rfl

/-- Claim C7 witness: the amended theorem applied to the spec's example
buffers, an 8-byte ISO-BMFF header and a 3-byte buffer. -/
theorem detect_container_amended_witness :
    detect_container [0x00, 0x00, 0x00, 0x20, 0x66, 0x74, 0x79, 0x70] =
      ContainerKind.mp4 ∧
    detect_container [1, 2, 3] = ContainerKind.flac :=
  ⟨detect_container_amended.2.1 _ (by decide) (by decide) (by decide),
    detect_container_amended.2.2.1 _ (by decide) (by decide)⟩

/-- Claim C5: the `poll_for_token` response dispatch — a 2xx response
returns the parsed token (an unparseable 2xx body propagates a `Json`
error); a parsed error body transitions on its `error` field:
`authorization_pending` continues with no extra sleep, `slow_down`
sleeps 5 extra seconds and continues, `expired_token` fails with
auth-kind "code expired", `access_denied` fails with auth-kind
"access denied", and anything else fails with an auth-kind message
containing the error string and the debug-formatted description. -/
theorem poll_for_token_dispatch (status : Nat) (t : TokenResponse)
    (tb : Option TokenResponse) (err : TokenErrorResponse)
    (eb : Option TokenErrorResponse) :
    (isSuccessStatus status = true →
      poll_dispatch status (some t) eb = PollStep.done t) ∧
    (isSuccessStatus status = false → err.error = "authorization_pending" →
      poll_dispatch status tb (some err) = PollStep.again 0) ∧
    (isSuccessStatus status = false → err.error = "slow_down" →
      poll_dispatch status tb (some err) = PollStep.again 5) ∧
    (isSuccessStatus status = false → err.error = "expired_token" →
      poll_dispatch status tb (some err) =
        PollStep.fail (TidalError.auth "code expired")) ∧
    (isSuccessStatus status = false → err.error = "access_denied" →
      poll_dispatch status tb (some err) =
        PollStep.fail (TidalError.auth "access denied")) ∧
    (isSuccessStatus status = false →
      err.error ∉ ["authorization_pending", "slow_down", "expired_token", "access_denied"] →
      poll_dispatch status tb (some err) =
        PollStep.fail (TidalError.auth
          (err.error ++ ": " ++ debugFormatOptString err.error_description))) := by
  refine ⟨?_, ?_, ?_, ?_, ?_, ?_⟩
  · intro h; simp [poll_dispatch, h]
  · intro h he; simp [poll_dispatch, h, he]
  · intro h he; simp [poll_dispatch, h, he]
  · intro h he; simp [poll_dispatch, h, he]
  · intro h he; simp [poll_dispatch, h, he]
  · intro h he
    simp only [List.mem_cons, List.not_mem_nil, or_false, not_or] at he
    obtain ⟨h1, h2, h3, h4⟩ := he
    simp [poll_dispatch, h, h1, h2, h3, h4]

/-- Claim C5 witness: the dispatch theorem applied at concrete
statuses and bodies for each transition. -/
theorem poll_for_token_dispatch_witness :
    poll_dispatch 200 (some ⟨"a", "r", "Bearer", 60⟩) none =
      PollStep.done ⟨"a", "r", "Bearer", 60⟩ ∧
    poll_dispatch 400 none (some ⟨"authorization_pending", none⟩) =
      PollStep.again 0 ∧
    poll_dispatch 400 none (some ⟨"slow_down", none⟩) = PollStep.again 5 ∧
    poll_dispatch 400 none (some ⟨"expired_token", none⟩) =
      PollStep.fail (TidalError.auth "code expired") ∧
    poll_dispatch 400 none (some ⟨"access_denied", none⟩) =
      PollStep.fail (TidalError.auth "access denied") ∧
    poll_dispatch 400 none (some ⟨"server_error", some "boom"⟩) =
      PollStep.fail (TidalError.auth "server_error: Some(\"boom\")") := by
  refine ⟨(poll_for_token_dispatch 200 _ none ⟨"", none⟩ none).1 (by decide),
    (poll_for_token_dispatch 400 ⟨"", "", "", 0⟩ none _ none).2.1 (by decide) rfl,
    (poll_for_token_dispatch 400 ⟨"", "", "", 0⟩ none _ none).2.2.1 (by decide) rfl,
    (poll_for_token_dispatch 400 ⟨"", "", "", 0⟩ none _ none).2.2.2.1 (by decide) rfl,
    (poll_for_token_dispatch 400 ⟨"", "", "", 0⟩ none _ none).2.2.2.2.1 (by decide) rfl,
    ?_⟩
  have := (poll_for_token_dispatch 400 ⟨"", "", "", 0⟩ none
    ⟨"server_error", some "boom"⟩ none).2.2.2.2.2 (by decide) (by decide)
  simpa using this

/-- Claim C10: when the token endpoint returns a non-2xx response whose
body does not parse as a `TokenErrorResponse`, the `if let` in
`poll_for_token` falls through and the loop silently continues — the
iteration neither returns a token nor fails. -/
theorem poll_unparseable_error_continues (status : Nat) (tb : Option TokenResponse)
    (h : isSuccessStatus status = false) :
    poll_dispatch status tb none = PollStep.again 0 ∧
    (∀ t, poll_dispatch status tb none ≠ PollStep.done t) ∧
    (∀ e, poll_dispatch status tb none ≠ PollStep.fail e) := by
  have hd : poll_dispatch status tb none = PollStep.again 0 := by
    simp [poll_dispatch, h]
  exact ⟨hd, fun t hc => by rw [hd] at hc; exact PollStep.noConfusion hc,
    fun e hc => by rw [hd] at hc; exact PollStep.noConfusion hc⟩

/-- Claim C10 witness: the theorem applied to a concrete 500 response. -/
theorem poll_unparseable_error_continues_witness :
    poll_dispatch 500 none none = PollStep.again 0 :=
  (poll_unparseable_error_continues 500 none (by decide)).1

theorem ctrApply_append (ks : Nat → Nat) (pos : Nat) (A B : List Nat) :
    ctrApply ks pos (A ++ B) = ctrApply ks pos A ++ ctrApply ks (pos + A.length) B := by
  induction A generalizing pos with
  | nil => simp [ctrApply]
  | cons a A ih =>
    simp only [List.cons_append, ctrApply, List.length_cons, List.append_eq]
    rw [ih (pos + 1)]
    have h : pos + 1 + A.length = pos + (A.length + 1) := by omega
    rw [h]

/-- Claim C6: with a single decryptor, decrypting `A ++ B` equals
decrypting `A` and then `B` successively with the same (advanced)
decryptor — both in output bytes and in final cipher state — and
consequently the per-segment decryption performed by `get_stream_bytes`
over the segments in manifest order produces exactly the bytes of
decrypting the whole concatenated stream at once.  The statement
quantifies over every keystream, hence over every decryption key and
nonce (each key/nonce pair determines one keystream). -/
theorem ctr_segment_decryption_order (d : StreamDecryptor) (A B : List Nat) :
    (d.decrypt (A ++ B)).1 = (d.decrypt A).1 ++ ((d.decrypt A).2.decrypt B).1 ∧
    (d.decrypt (A ++ B)).2 = ((d.decrypt A).2.decrypt B).2 ∧
    (∀ segments : List (List Nat),
      (get_stream_bytes (some d) segments).1 = (d.decrypt segments.flatten).1) := by
  refine ⟨ctrApply_append d.keystream d.pos A B, ?_, ?_⟩
  · simp [StreamDecryptor.decrypt, Nat.add_assoc]
  · intro segments
    induction segments generalizing d with
    | nil => simp [get_stream_bytes, StreamDecryptor.decrypt, ctrApply]
    | cons seg rest ih =>
      simp only [get_stream_bytes, StreamDecryptor.decrypt, List.flatten_cons,
        ctrApply_append]
      rw [ih ⟨d.keystream, d.pos + seg.length⟩]
      simp [StreamDecryptor.decrypt]

theorem isNetwork_true_iff (e : TidalError) : e.isNetwork = true ↔ e = TidalError.network := by
  cases e <;> simp [TidalError.isNetwork]

theorem get_once_response_ne_network {α : Type} (status : Nat) (body : List Nat)
    (parsed : Option α) :
    get_once (HttpOutcome.response status body parsed) ≠
      PanicOr.ret (Except.error TidalError.network) := by
  simp only [get_once]
  split
  · cases parsed <;> simp
  · split <;> simp

theorem retryLoop_spec {α : Type} (m d : Nat) (o : Nat → HttpOutcome α)
    (attempt : Nat) : attempt ≤ m →
    (attempt < (retryLoop m d o attempt).calls ∧
      (retryLoop m d o attempt).calls ≤ m + 1) ∧
    (∀ k, attempt ≤ k → k + 1 < (retryLoop m d o attempt).calls →
      get_once (o k) = PanicOr.ret (Except.error TidalError.network)) ∧
    (retryLoop m d o attempt).result =
      get_once (o ((retryLoop m d o attempt).calls - 1)) ∧
    (retryLoop m d o attempt).sleeps =
      (List.range' (max attempt 1)
        ((retryLoop m d o attempt).calls - max attempt 1)).map (fun j => d * j) := by
  induction attempt using retryLoop.induct m d o with
  | case1 x heq =>
    intro hxm
    have hunf : retryLoop m d o x =
        ⟨PanicOr.crash, x + 1, if x = 0 then [] else [d * x]⟩ := by
      rw [retryLoop, heq]
    rw [hunf]
    dsimp only
    refine ⟨⟨by omega, by omega⟩, fun k hk1 hk2 => by omega, by simp [heq], ?_⟩
    by_cases hx : x = 0
    · subst hx; simp
    · simp only [if_neg hx]
      have hmax : max x 1 = x := by omega
      rw [hmax]
      have hn : x + 1 - x = 1 := by omega
      rw [hn, List.range'_one]
      simp
  | case2 x v heq =>
    intro hxm
    have hunf : retryLoop m d o x =
        ⟨PanicOr.ret (Except.ok v), x + 1, if x = 0 then [] else [d * x]⟩ := by
      rw [retryLoop, heq]
    rw [hunf]
    dsimp only
    refine ⟨⟨by omega, by omega⟩, fun k hk1 hk2 => by omega, by simp [heq], ?_⟩
    by_cases hx : x = 0
    · subst hx; simp
    · simp only [if_neg hx]
      have hmax : max x 1 = x := by omega
      rw [hmax]
      have hn : x + 1 - x = 1 := by omega
      rw [hn, List.range'_one]
      simp
  | case3 x e heq hcond ih =>
    intro hxm
    have hx1m : x + 1 ≤ m := hcond.2
    obtain ⟨⟨hc1, hc2⟩, hnet, hres, hsl⟩ := ih hx1m
    have hunf : retryLoop m d o x =
        ⟨(retryLoop m d o (x + 1)).result, (retryLoop m d o (x + 1)).calls,
          (if x = 0 then [] else [d * x]) ++ (retryLoop m d o (x + 1)).sleeps⟩ := by
      rw [retryLoop, heq]
      dsimp only
      rw [if_pos hcond]
    rw [hunf]
    dsimp only
    refine ⟨⟨by omega, hc2⟩, ?_, hres, ?_⟩
    · intro k hk1 hk2
      rcases Nat.eq_or_lt_of_le hk1 with hkx | hkx
      · subst hkx
        rw [heq, (isNetwork_true_iff e).mp hcond.1]
      · exact hnet k hkx hk2
    · rw [hsl]
      by_cases hx : x = 0
      · subst hx
        simp
      · simp only [if_neg hx]
        have hmx : max x 1 = x := by omega
        have hmx1 : max (x + 1) 1 = x + 1 := by omega
        rw [hmx, hmx1]
        have hcount : (retryLoop m d o (x + 1)).calls - x =
            ((retryLoop m d o (x + 1)).calls - (x + 1)) + 1 := by omega
        rw [hcount, List.range'_succ x ((retryLoop m d o (x + 1)).calls - (x + 1)) 1]
        simp
  | case4 x e heq hcond =>
    intro hxm
    have hunf : retryLoop m d o x =
        ⟨PanicOr.ret (Except.error e), x + 1, if x = 0 then [] else [d * x]⟩ := by
      rw [retryLoop, heq]
      dsimp only
      rw [if_neg hcond]
    rw [hunf]
    dsimp only
    refine ⟨⟨by omega, by omega⟩, fun k hk1 hk2 => by omega, by simp [heq], ?_⟩
    by_cases hx : x = 0
    · subst hx; simp
    · simp only [if_neg hx]
      have hmax : max x 1 = x := by omega
      rw [hmax]
      have hn : x + 1 - x = 1 := by omega
      rw [hn, List.range'_one]
      simp

set_option maxRecDepth 4000 in
/-- Claim C4 counterexample: the claim says every non-2xx response is
surfaced as an `Api`-kind error, but the truncation
`text[..text.len().min(200)]` is a byte slice of a `String`: on a
valid-UTF-8 body of 201 bytes — 199 `'a'`s followed by the two-byte
character `'é'` (`0xC3 0xA9`) — byte 200 is the continuation byte
`0xA9`, not a char boundary, so the slice panics and `get_with_retry`
unwinds with a panic instead of returning an `Api` error. -/
theorem get_once_truncation_panic_counterexample :
    get_once (HttpOutcome.response 404
        (List.replicate 199 97 ++ [0xC3, 0xA9]) (none : Option Nat)) =
      PanicOr.crash ∧
    (get_with_retry 3 500 (fun _ => HttpOutcome.response 404
        (List.replicate 199 97 ++ [0xC3, 0xA9]) (none : Option Nat))).result =
      PanicOr.crash ∧
    (get_with_retry 3 500 (fun _ => HttpOutcome.response 404
        (List.replicate 199 97 ++ [0xC3, 0xA9]) (none : Option Nat))).result ≠
      PanicOr.ret (Except.error (TidalError.api 404
        ((List.replicate 199 97 ++ [0xC3, 0xA9]).take
          (min 200 (List.replicate 199 97 ++ [0xC3, 0xA9]).length)))) := by
  have hgo : get_once (HttpOutcome.response 404
      (List.replicate 199 97 ++ [0xC3, 0xA9]) (none : Option Nat)) =
      (PanicOr.crash : PanicOr (Except TidalError Nat)) := by decide
  obtain ⟨_, _, hres, _⟩ := retryLoop_spec 3 500
    (fun _ => HttpOutcome.response 404
      (List.replicate 199 97 ++ [0xC3, 0xA9]) (none : Option Nat)) 0 (by omega)
  have hcrash : (get_with_retry 3 500 (fun _ => HttpOutcome.response 404
      (List.replicate 199 97 ++ [0xC3, 0xA9]) (none : Option Nat))).result =
      PanicOr.crash := by
    simp only [get_with_retry]
    rw [hres, hgo]
  refine ⟨hgo, hcrash, ?_⟩
  rw [hcrash]
  intro hc
  exact PanicOr.noConfusion hc

/-- Claim C4 (amended): `get_with_retry` makes at most `max_retries + 1`
calls in total (so at most `max_retries` additional attempts, default
3); every call that was followed by another had failed with a
transport-level `Network` error (so nothing else — in particular no
HTTP error status — is ever retried); the returned result is exactly
the outcome of the final call; the sleeps performed are
`retry_delay * attempt` before attempt number `attempt`, for
`attempt = 1, 2, …`; a non-2xx final response surfaces immediately as
an `Api` error carrying the status and at most the first 200 bytes of
the body provided byte 200 of the body falls on a UTF-8 character
boundary (in particular whenever the body is at most 200 bytes) — when
it does not, the byte-slice truncation panics instead — and in neither
case is the response retried. -/
theorem get_with_retry_policy {α : Type} (m d : Nat) (o : Nat → HttpOutcome α) :
    (1 ≤ (get_with_retry m d o).calls ∧ (get_with_retry m d o).calls ≤ m + 1) ∧
    (∀ k, k + 1 < (get_with_retry m d o).calls →
      get_once (o k) = PanicOr.ret (Except.error TidalError.network)) ∧
    (get_with_retry m d o).result =
      get_once (o ((get_with_retry m d o).calls - 1)) ∧
    (get_with_retry m d o).sleeps =
      (List.range' 1 ((get_with_retry m d o).calls - 1)).map (fun j => d * j) ∧
    (∀ status body parsed, isSuccessStatus status = false →
      isCharBoundary body (min 200 body.length) = true →
      o ((get_with_retry m d o).calls - 1) = HttpOutcome.response status body parsed →
      (get_with_retry m d o).result = PanicOr.ret
        (Except.error (TidalError.api status (body.take (min 200 body.length)))) ∧
      (body.take (min 200 body.length)).length ≤ 200) ∧
    (∀ status body parsed, isSuccessStatus status = false →
      isCharBoundary body (min 200 body.length) = false →
      o ((get_with_retry m d o).calls - 1) = HttpOutcome.response status body parsed →
      (get_with_retry m d o).result = PanicOr.crash) ∧
    (∀ k status body parsed, k + 1 < (get_with_retry m d o).calls →
      o k ≠ HttpOutcome.response status body parsed) ∧
    defaultClientMaxRetries = 3 := by
  obtain ⟨⟨hc1, hc2⟩, hnet, hres, hsl⟩ := retryLoop_spec m d o 0 (Nat.zero_le m)
  simp only [get_with_retry]
  refine ⟨⟨hc1, hc2⟩, fun k => hnet k (Nat.zero_le k), hres, by simpa using hsl,
    ?_, ?_, ?_, rfl⟩
  · intro status body parsed hstat hbound hresp
    constructor
    · rw [hres, hresp]
      simp [get_once, hstat, hbound]
    · simp only [List.length_take]
      omega
  · intro status body parsed hstat hbound hresp
    rw [hres, hresp]
    simp [get_once, hstat, hbound]
  · intro k status body parsed hk hresp
    exact get_once_response_ne_network status body parsed (hresp ▸ hnet k (Nat.zero_le k) hk)

/-- Claim C4 witness: the amended policy theorem applied to a concrete
outcome sequence whose first call answers 404 with a 3-byte body (a
char boundary, as for every body of at most 200 bytes): the error
surfaces immediately as an `Api` error with the whole (≤ 200 bytes)
body, after exactly one call. -/
theorem get_with_retry_policy_witness :
    (get_with_retry 3 500 (fun _ => HttpOutcome.response 404 [1, 2, 3]
      (none : Option Nat))).result =
      PanicOr.ret (Except.error (TidalError.api 404 [1, 2, 3])) ∧
    ([1, 2, 3] : List Nat).take (min 200 ([1, 2, 3] : List Nat).length) = [1, 2, 3] := by
  have h := (get_with_retry_policy 3 500
    (fun _ => HttpOutcome.response 404 [1, 2, 3] (none : Option Nat))).2.2.2.2.1
    404 [1, 2, 3] none (by decide) (by decide) rfl
  exact ⟨by simpa using h.1, by decide⟩

theorem mpdOpenTag_flag (st : MpdState) (n : String) (attrs : List XmlAttr) :
    (mpdOpenTag st n attrs).in_segment_timeline =
      (if n = "SegmentTimeline" then true else st.in_segment_timeline) := by
  by_cases h1 : n = "AdaptationSet"
  · subst h1; simp [mpdOpenTag]
  · by_cases h2 : n = "Representation"
    · subst h2; simp [mpdOpenTag]
    · by_cases h3 : n = "SegmentTemplate"
      · subst h3; simp [mpdOpenTag]
      · by_cases h4 : n = "SegmentTimeline"
        · subst h4; simp [mpdOpenTag]
        · by_cases h5 : n = "S"
          · subst h5
            by_cases hst : st.in_segment_timeline = true <;> simp [mpdOpenTag, hst]
          · simp [mpdOpenTag, h1, h2, h3, h4, h5]

theorem mpdOpenTag_segs (st : MpdState) (n : String) (attrs : List XmlAttr) :
    (mpdOpenTag st n attrs).segment_durations =
      (if n = "S" ∧ st.in_segment_timeline then
        st.segment_durations ++ [(sParseD attrs, (sParseR attrs + 1) % 2 ^ 32)]
      else st.segment_durations) := by
  by_cases h1 : n = "AdaptationSet"
  · subst h1; simp [mpdOpenTag]
  · by_cases h2 : n = "Representation"
    · subst h2; simp [mpdOpenTag]
    · by_cases h3 : n = "SegmentTemplate"
      · subst h3; simp [mpdOpenTag]
      · by_cases h4 : n = "SegmentTimeline"
        · subst h4; simp [mpdOpenTag]
        · by_cases h5 : n = "S"
          · subst h5
            by_cases hst : st.in_segment_timeline = true <;> simp [mpdOpenTag, hst]
          · simp [mpdOpenTag, h1, h2, h3, h4, h5]

theorem foldl_mpd_step_segment_durations (events : List XmlEvent) :
    ∀ st : MpdState, (events.foldl mpd_step st).segment_durations =
      st.segment_durations ++ specSegmentCounts st.in_segment_timeline events := by
  induction events with
  | nil => intro st; simp [specSegmentCounts]
  | cons e rest ih =>
    intro st
    rw [List.foldl_cons, ih]
    cases e with
    | startTag n attrs =>
      simp only [mpd_step, specSegmentCounts, mpdOpenTag_flag, mpdOpenTag_segs]
      by_cases h1 : n = "SegmentTimeline"
      · have h2 : ¬(n = "S" ∧ st.in_segment_timeline) := fun hc => by
          rw [hc.1] at h1; exact absurd h1 (by decide)
        rw [if_pos h1, if_pos h1, if_neg h2]
      · rw [if_neg h1, if_neg h1]
        by_cases h2 : n = "S" ∧ st.in_segment_timeline
        · rw [if_pos h2, if_pos h2, List.append_assoc, List.singleton_append]
        · rw [if_neg h2, if_neg h2]
    | emptyTag n attrs =>
      simp only [mpd_step, specSegmentCounts, mpdOpenTag_flag, mpdOpenTag_segs]
      by_cases h1 : n = "SegmentTimeline"
      · have h2 : ¬(n = "S" ∧ st.in_segment_timeline) := fun hc => by
          rw [hc.1] at h1; exact absurd h1 (by decide)
        rw [if_pos h1, if_pos h1, if_neg h2]
      · rw [if_neg h1, if_neg h1]
        by_cases h2 : n = "S" ∧ st.in_segment_timeline
        · rw [if_pos h2, if_pos h2, List.append_assoc, List.singleton_append]
        · rw [if_neg h2, if_neg h2]
    | endTag n =>
      simp only [mpd_step, specSegmentCounts]
      by_cases h1 : n = "SegmentTimeline"
      · rw [if_pos h1, if_pos h1]
      · rw [if_neg h1, if_neg h1]
    | textData s =>
      simp only [mpd_step, specSegmentCounts]

theorem segmentUrlsFrom_counter (media : String) :
    ∀ (entries : List (Nat × Nat)) (counter : Nat),
      segmentUrlsFrom media counter entries =
        (List.range ((entries.map Prod.snd).sum)).map
          (fun j => strReplace media "$Number$" (toString ((counter + j) % 2 ^ 32))) := by
  intro entries
  induction entries with
  | nil => intro counter; simp [segmentUrlsFrom]
  | cons p rest ih =>
    intro counter
    obtain ⟨dur, count⟩ := p
    simp only [segmentUrlsFrom, List.map_cons, List.sum_cons, List.range_add,
      List.map_append, List.map_map]
    rw [ih ((counter + count) % 2 ^ 32)]
    congr 1
    refine List.map_congr_left fun j _ => ?_
    have harg : ((counter + count) % 2 ^ 32 + j) % 2 ^ 32 =
        (counter + (count + j)) % 2 ^ 32 := by
      rw [Nat.mod_add_mod, Nat.add_assoc]
    rw [harg]
    rfl

theorem mpd_finish_init_first (st : MpdState) (u media : String)
    (h1 : st.initialization_url = some u) (h2 : st.media_template = some media) :
    mpd_finish st = Except.ok
      { mime_type := if st.mime_type = "" then "audio/mp4" else st.mime_type
        codecs := st.codecs
        urls := u :: segmentUrlsFrom media 1 st.segment_durations } := by
  simp only [mpd_finish, h1, h2]
  rw [if_neg (by simp)]
  rfl

/-- Claim C3 counterexample: the claim's general clause says every `<S>`
with repeat attribute `r` contributes `r + 1` segments, but the count is
computed in `u32`: with `r = "4294967295"` (`u32::MAX`) the stored count
`repeat + 1` wraps to 0 (release-mode semantics), so the `<S>` element
contributes no segments at all and only the initialization URL is
emitted — not `4294967296` media segments. -/
theorem parse_mpd_r_wraparound_counterexample :
    parse_mpd
      [XmlEvent.emptyTag "SegmentTemplate"
        [⟨"initialization", "init.mp4"⟩, ⟨"media", "seg$Number$.m4s"⟩],
       XmlEvent.startTag "SegmentTimeline" [],
       XmlEvent.emptyTag "S" [⟨"d", "1"⟩, ⟨"r", "4294967295"⟩],
       XmlEvent.endTag "SegmentTimeline"] =
      Except.ok { mime_type := "audio/mp4", codecs := "", urls := ["init.mp4"] } := by
  decide

/-- Claim C3 (amended): the concrete example projects to exactly
`["init.mp4", "seg1.m4s", "seg2.m4s", "seg3.m4s", "seg4.m4s"]`; in
general every `<S>` inside a `SegmentTimeline` with repeat attribute `r`
contributes `(r + 1) mod 2^32` segments (1 when `r` is absent or
unparseable; the count is a `u32`, so `r = 4294967295` wraps to 0), the
`$Number$` placeholder is substituted by a single 1-based `u32` counter
incremented once per segment across all `<S>` entries, and the
initialization URL is emitted first. -/
theorem parse_mpd_amended :
    parse_mpd
      [XmlEvent.startTag "MPD" [], XmlEvent.startTag "Period" [],
       XmlEvent.startTag "AdaptationSet" [],
       XmlEvent.emptyTag "SegmentTemplate"
         [⟨"initialization", "init.mp4"⟩, ⟨"media", "seg$Number$.m4s"⟩],
       XmlEvent.startTag "SegmentTimeline" [],
       XmlEvent.emptyTag "S" [⟨"d", "100"⟩, ⟨"r", "2"⟩],
       XmlEvent.emptyTag "S" [⟨"d", "50"⟩],
       XmlEvent.endTag "SegmentTimeline",
       XmlEvent.endTag "AdaptationSet", XmlEvent.endTag "Period",
       XmlEvent.endTag "MPD"] =
      Except.ok
        { mime_type := "audio/mp4", codecs := "",
          urls := ["init.mp4", "seg1.m4s", "seg2.m4s", "seg3.m4s", "seg4.m4s"] } ∧
    (∀ events : List XmlEvent,
      (events.foldl mpd_step mpdInit).segment_durations =
        specSegmentCounts false events) ∧
    (∀ (media : String) (counter : Nat) (entries : List (Nat × Nat)),
      segmentUrlsFrom media counter entries =
        (List.range ((entries.map Prod.snd).sum)).map
          (fun j => strReplace media "$Number$" (toString ((counter + j) % 2 ^ 32)))) ∧
    (∀ (st : MpdState) (u media : String),
      st.initialization_url = some u → st.media_template = some media →
      mpd_finish st = Except.ok
        { mime_type := if st.mime_type = "" then "audio/mp4" else st.mime_type
          codecs := st.codecs
          urls := u :: segmentUrlsFrom media 1 st.segment_durations }) := by
  refine ⟨by decide, ?_, ?_, ?_⟩
  · intro events
    rw [foldl_mpd_step_segment_durations events mpdInit]
    simp [mpdInit]
  · intro media counter entries
    exact segmentUrlsFrom_counter media entries counter
  · intro st u media h1 h2
    exact mpd_finish_init_first st u media h1 h2

/-- Claim C3 witness: the amended theorem's projection law applied to a
concrete state with an initialization URL, a media template, and one
timeline entry of count 2. -/
theorem parse_mpd_amended_witness :
    mpd_finish
      { mime_type := "", codecs := "flac", in_segment_timeline := false,
        initialization_url := some "i.mp4", media_template := some "m$Number$.mp4",
        segment_durations := [(5, 2)] } =
      Except.ok
        { mime_type := "audio/mp4", codecs := "flac",
          urls := "i.mp4" :: segmentUrlsFrom "m$Number$.mp4" 1 [(5, 2)] } := by
  have h := parse_mpd_amended.2.2.2
    { mime_type := "", codecs := "flac", in_segment_timeline := false,
      initialization_url := some "i.mp4", media_template := some "m$Number$.mp4",
      segment_durations := [(5, 2)] } "i.mp4" "m$Number$.mp4" rfl rfl
  simpa using h

theorem pairwise_time_getD (lines : List LyricLine)
    (hs : lines.Pairwise (fun a b => a.time ≤ b.time)) (i j : Nat) (hij : i ≤ j)
    (hj : j < lines.length) :
    (lines.getD i default).time ≤ (lines.getD j default).time := by
  rcases Nat.eq_or_lt_of_le hij with h | h
  · subst h; exact le_refl _
  · have hi : i < lines.length := lt_trans h hj
    rw [List.getD_eq_getElem lines default hi, List.getD_eq_getElem lines default hj]
    have := List.pairwise_iff_get.mp hs ⟨i, hi⟩ ⟨j, hj⟩ h
    simpa using this

theorem binarySearchLoopAux_partition (p : Nat) (lines : List LyricLine)
    (hs : lines.Pairwise (fun a b => a.time ≤ b.time)) :
    ∀ (fuel left right : Nat),
      left ≤ right → right ≤ lines.length → right - left ≤ fuel →
      (∀ i, i < left → i < lines.length → (lines.getD i default).time ≤ p) →
      (∀ i, right ≤ i → i < lines.length → p < (lines.getD i default).time) →
      ∃ L, binarySearchLoopAux fuel (lineCmp p) lines left right = Sum.inr L ∧
        left ≤ L ∧ L ≤ right ∧
        (∀ i, i < L → i < lines.length → (lines.getD i default).time ≤ p) ∧
        (∀ i, L ≤ i → i < lines.length → p < (lines.getD i default).time) := by
  intro fuel
  induction fuel with
  | zero =>
    intro left right hlr hrlen hspan hlow hhigh
    have hEq : left = right := by omega
    subst hEq
    exact ⟨left, rfl, le_refl _, le_refl _, hlow, hhigh⟩
  | succ fuel ih =>
    intro left right hlr hrlen hspan hlow hhigh
    by_cases h : left < right
    · have hmid1 : left ≤ left + (right - left) / 2 := by omega
      have hmid2 : left + (right - left) / 2 < right := by omega
      by_cases hc : (lines.getD (left + (right - left) / 2) default).time ≤ p
      · have hstep : binarySearchLoopAux (fuel + 1) (lineCmp p) lines left right =
            binarySearchLoopAux fuel (lineCmp p) lines
              (left + (right - left) / 2 + 1) right := by
          simp only [binarySearchLoopAux, if_pos h, lineCmp, if_pos hc]
        have hlow' : ∀ i, i < left + (right - left) / 2 + 1 → i < lines.length →
            (lines.getD i default).time ≤ p := by
          intro i hi hilen
          by_cases hileft : i < left
          · exact hlow i hileft hilen
          · exact le_trans
              (pairwise_time_getD lines hs i (left + (right - left) / 2) (by omega)
                (by omega)) hc
        obtain ⟨L, hL, hL1, hL2, hL3, hL4⟩ :=
          ih (left + (right - left) / 2 + 1) right (by omega) hrlen (by omega) hlow' hhigh
        exact ⟨L, hstep ▸ hL, by omega, hL2, hL3, hL4⟩
      · have hcgt : p < (lines.getD (left + (right - left) / 2) default).time :=
          Nat.lt_of_not_le hc
        have hstep : binarySearchLoopAux (fuel + 1) (lineCmp p) lines left right =
            binarySearchLoopAux fuel (lineCmp p) lines left
              (left + (right - left) / 2) := by
          simp only [binarySearchLoopAux, if_pos h, lineCmp, if_neg hc]
        have hhigh' : ∀ i, left + (right - left) / 2 ≤ i → i < lines.length →
            p < (lines.getD i default).time := by
          intro i hi hilen
          exact lt_of_lt_of_le hcgt
            (pairwise_time_getD lines hs (left + (right - left) / 2) i hi hilen)
        obtain ⟨L, hL, hL1, hL2, hL3, hL4⟩ :=
          ih left (left + (right - left) / 2) hmid1 (by omega) (by omega) hlow hhigh'
        exact ⟨L, hstep ▸ hL, hL1, by omega, hL3, hL4⟩
    · have hstep : binarySearchLoopAux (fuel + 1) (lineCmp p) lines left right =
          Sum.inr left := by
        simp only [binarySearchLoopAux, if_neg h]
      have hEq : left = right := by omega
      subst hEq
      exact ⟨left, hstep, le_refl _, le_refl _, hlow, hhigh⟩

theorem line_index_at_partition (lyrics : SyncedLyrics) (p : Nat)
    (hs : LinesSorted lyrics) :
    ∃ L, L ≤ lyrics.lines.length ∧
      (∀ i, i < L → i < lyrics.lines.length → (lyrics.lines.getD i default).time ≤ p) ∧
      (∀ i, L ≤ i → i < lyrics.lines.length → p < (lyrics.lines.getD i default).time) ∧
      line_index_at lyrics p =
        (if lyrics.lines = [] ∨ L = 0 then none else some (L - 1)) := by
  obtain ⟨L, hbs, h0L, hLlen, hlow, hhigh⟩ :=
    binarySearchLoopAux_partition p lyrics.lines hs lyrics.lines.length 0
      lyrics.lines.length (Nat.zero_le _) (le_refl _) (by omega)
      (fun i h1 _ => absurd h1 (Nat.not_lt_zero i))
      (fun i h1 h2 => absurd (lt_of_le_of_lt h1 h2) (lt_irrefl _))
  refine ⟨L, hLlen, hlow, hhigh, ?_⟩
  unfold line_index_at find_line_index
  by_cases hnil : lyrics.lines = []
  · simp [hnil]
  · rw [if_neg hnil]
    have hbs' : binarySearchBy (lineCmp p) lyrics.lines = Sum.inr L := by
      unfold binarySearchBy binarySearchLoop
      simpa using hbs
    rw [hbs']
    by_cases hL0 : L = 0
    · subst hL0
      have hlen0 : 0 < lyrics.lines.length := List.length_pos.mpr hnil
      have hgt := hhigh 0 (Nat.zero_le _) hlen0
      rw [if_neg (Nat.not_le.mpr hgt)]
      simp
    · have hidx : L - 1 < L := by omega
      have hlt : L - 1 < lyrics.lines.length := by omega
      have hle := hlow (L - 1) hidx hlt
      rw [if_pos hle]
      simp [hnil, hL0]

/-- Claim C8: for lyrics whose lines are sorted by non-decreasing time
and positions `p1 ≤ p2`, whenever `line_index_at` is defined at both
positions, the index at `p1` is at most the index at `p2`. -/
theorem line_index_at_monotone (lyrics : SyncedLyrics) (hs : LinesSorted lyrics)
    (p1 p2 : Nat) (hp : p1 ≤ p2) (i1 i2 : Nat)
    (h1 : line_index_at lyrics p1 = some i1)
    (h2 : line_index_at lyrics p2 = some i2) : i1 ≤ i2 := by
  obtain ⟨L1, hL1len, hlow1, hhigh1, heq1⟩ := line_index_at_partition lyrics p1 hs
  obtain ⟨L2, hL2len, hlow2, hhigh2, heq2⟩ := line_index_at_partition lyrics p2 hs
  rw [heq1] at h1
  rw [heq2] at h2
  by_cases hc1 : lyrics.lines = [] ∨ L1 = 0
  · rw [if_pos hc1] at h1; exact absurd h1 (by simp)
  · rw [if_neg hc1] at h1
    by_cases hc2 : lyrics.lines = [] ∨ L2 = 0
    · rw [if_pos hc2] at h2; exact absurd h2 (by simp)
    · rw [if_neg hc2] at h2
      push_neg at hc1
      injection h1 with hi1
      injection h2 with hi2
      have hL12 : L1 ≤ L2 := by
        by_contra hcon
        push_neg at hcon
        have hL2lt : L2 < lyrics.lines.length := lt_of_lt_of_le hcon hL1len
        have ha := hlow1 L2 hcon hL2lt
        have hb := hhigh2 L2 (le_refl _) hL2lt
        omega
      omega

/-- Claim C8 witness: the monotonicity theorem applied to the two-line
lyrics `[(10, "First"), (62, "Hi")]` at positions 15 ≤ 70, where the
lookups return indices 0 and 1. -/
theorem line_index_at_monotone_witness :
    line_index_at ⟨[⟨10, "First"⟩, ⟨62, "Hi"⟩]⟩ 15 = some 0 ∧
    line_index_at ⟨[⟨10, "First"⟩, ⟨62, "Hi"⟩]⟩ 70 = some 1 ∧
    (0 : Nat) ≤ 1 :=
  ⟨by decide, by decide,
    line_index_at_monotone ⟨[⟨10, "First"⟩, ⟨62, "Hi"⟩]⟩ (by decide) 15 70
      (by decide) 0 1 (by decide) (by decide)⟩

end Tidal
